import Mathlib

/-!
Shallow embedding of the rigid-body simulation core (src/math.rs,
src/collision.rs, src/rigidbody.rs) and proofs about it.

Real-number scalars (`f32` in the source) are modelled by `ℚ`: every
operation the embedded fragments use (+, -, *, /, min, max, comparisons)
is exact on the inputs the claims exercise, so the rational model is
faithful to the extended-real semantics of the code.  Square roots are
avoided by squaring both sides of the one comparison that uses a length
(`axis.length() < 1e-6` becomes `axis ⬝ axis < 1e-12`, equivalent for
nonnegative reals).
-/

/-- `Vec3` from `bevy::math` (three scalar components). -/
structure Vec3Q where
  x : ℚ
  y : ℚ
  z : ℚ
deriving DecidableEq, Repr

namespace Vec3Q

def add (a b : Vec3Q) : Vec3Q := ⟨a.x + b.x, a.y + b.y, a.z + b.z⟩

def sub (a b : Vec3Q) : Vec3Q := ⟨a.x - b.x, a.y - b.y, a.z - b.z⟩

def neg (a : Vec3Q) : Vec3Q := ⟨-a.x, -a.y, -a.z⟩

def smul (c : ℚ) (a : Vec3Q) : Vec3Q := ⟨c * a.x, c * a.y, c * a.z⟩

/-- `Vec3 / f32` (componentwise division by a scalar). -/
def divScalar (a : Vec3Q) (c : ℚ) : Vec3Q := ⟨a.x / c, a.y / c, a.z / c⟩

def dot (a b : Vec3Q) : ℚ := a.x * b.x + a.y * b.y + a.z * b.z

def cross (a b : Vec3Q) : Vec3Q :=
  ⟨a.y * b.z - a.z * b.y, a.z * b.x - a.x * b.z, a.x * b.y - a.y * b.x⟩

instance : Add Vec3Q := ⟨add⟩
instance : Sub Vec3Q := ⟨sub⟩
instance : Neg Vec3Q := ⟨neg⟩
instance : SMul ℚ Vec3Q := ⟨smul⟩
instance : Zero Vec3Q := ⟨⟨0, 0, 0⟩⟩

/-- Index a `Vec3` by dimension, as `v[d]` in the source. -/
def nth (v : Vec3Q) : Fin 3 → ℚ
  | 0 => v.x
  | 1 => v.y
  | 2 => v.z

theorem add_comp (a b : Vec3Q) : a + b = ⟨a.x + b.x, a.y + b.y, a.z + b.z⟩ := rfl

theorem sub_comp (a b : Vec3Q) : a - b = ⟨a.x - b.x, a.y - b.y, a.z - b.z⟩ := rfl

theorem neg_comp (a : Vec3Q) : -a = ⟨-a.x, -a.y, -a.z⟩ := rfl

theorem smul_comp (c : ℚ) (a : Vec3Q) : c • a = ⟨c * a.x, c * a.y, c * a.z⟩ := rfl

theorem zero_comp : (0 : Vec3Q) = ⟨0, 0, 0⟩ := rfl

end Vec3Q

/-- `cwise_max` from src/math.rs. -/
def cwise_max (v1 v2 : Vec3Q) : Vec3Q := ⟨max v1.x v2.x, max v1.y v2.y, max v1.z v2.z⟩

/-- `cwise_min` from src/math.rs. -/
def cwise_min (v1 v2 : Vec3Q) : Vec3Q := ⟨min v1.x v2.x, min v1.y v2.y, min v1.z v2.z⟩

/-- `cwise_mul` from src/math.rs. -/
def cwise_mul (v1 v2 : Vec3Q) : Vec3Q := ⟨v1.x * v2.x, v1.y * v2.y, v1.z * v2.z⟩

/-- `Interval` from src/math.rs: a 1-D projection range `[min; max]`. -/
structure IntervalQ where
  min : ℚ
  max : ℚ
deriving DecidableEq, Repr

namespace IntervalQ

/-- `Interval::length`. -/
def length (i : IntervalQ) : ℚ := i.max - i.min

/-- `Interval::intersection`: max of mins / min of maxes, `None` when the
resulting length is negative.  (The source binds the candidate interval `i`
once and tests `i.length() < 0.0`; the two occurrences below are that same
interval.) -/
def intersection (a b : IntervalQ) : Option IntervalQ :=
  if IntervalQ.length ⟨Max.max a.min b.min, Min.min a.max b.max⟩ < 0 then none
  else some ⟨Max.max a.min b.min, Min.min a.max b.max⟩

/-- `Interval::vertex_projection`: min/max dot product of the vertices with
the axis.  The source starts the fold from `(+∞, -∞)`; on a nonempty vertex
list that equals folding from the first projection, which is what we do here
(the function is only ever called on the fixed nonempty vertex lists of a
box, so the empty case below is unreachable). -/
def vertex_projection (vertices : List Vec3Q) (axis : Vec3Q) : IntervalQ :=
  match vertices with
  | [] => ⟨0, 0⟩
  | v :: vs =>
    vs.foldl
      (fun i u => ⟨Min.min (Vec3Q.dot u axis) i.min, Max.max (Vec3Q.dot u axis) i.max⟩)
      ⟨Vec3Q.dot v axis, Vec3Q.dot v axis⟩

end IntervalQ

/-- `AABB` from src/math.rs. -/
structure AABBQ where
  min : Vec3Q
  max : Vec3Q
deriving DecidableEq, Repr

/-- `AABB::fit_vertices`: componentwise min/max over transformed vertices.
As with `vertex_projection`, the `(+∞, -∞)` seed of the source is modelled
by folding from the first vertex; the empty case is unreachable (the only
caller passes the 8 box corners). -/
def AABBQ.fit_vertices (vertices : List Vec3Q) : AABBQ :=
  match vertices with
  | [] => ⟨0, 0⟩
  | v :: vs => vs.foldl (fun ab u => ⟨cwise_min ab.min u, cwise_max ab.max u⟩) ⟨v, v⟩

/-- `Quat` from `bevy::math` (glam), components `(x, y, z, w)`. -/
structure QuatQ where
  x : ℚ
  y : ℚ
  z : ℚ
  w : ℚ
deriving DecidableEq, Repr

/-- glam `Quat * Vec3` (rotation of a vector by a unit quaternion):
`v * (w² - b⬝b) + b * (v⬝b * 2) + (b × v) * (w * 2)` with `b = (x, y, z)`. -/
def QuatQ.mulVec3 (q : QuatQ) (v : Vec3Q) : Vec3Q :=
  let b : Vec3Q := ⟨q.x, q.y, q.z⟩
  let b2 : ℚ := Vec3Q.dot b b
  Vec3Q.smul (q.w * q.w - b2) v + Vec3Q.smul (Vec3Q.dot v b * 2) b +
    Vec3Q.smul (q.w * 2) (Vec3Q.cross b v)

/-- The identity rotation `Quat::IDENTITY = (0, 0, 0, 1)`. -/
def QuatQ.identity : QuatQ := ⟨0, 0, 0, 1⟩

/-- `bevy::GlobalTransform`: translation, rotation, scale. -/
structure TransformQ where
  translation : Vec3Q
  rotation : QuatQ
  scale : Vec3Q
deriving DecidableEq, Repr

namespace TransformQ

/-- `GlobalTransform::mul_vec3`: rotate, scale, then translate (bevy 0.7
applies rotation before scale; the claims only use unit scale, where the
order is immaterial). -/
def mul_vec3 (t : TransformQ) (v : Vec3Q) : Vec3Q :=
  cwise_mul t.scale (t.rotation.mulVec3 v) + t.translation

/-- `GlobalTransform::right() = local_x() = rotation * Vec3::X`. -/
def right (t : TransformQ) : Vec3Q := t.rotation.mulVec3 ⟨1, 0, 0⟩

/-- `GlobalTransform::up() = local_y() = rotation * Vec3::Y`. -/
def up (t : TransformQ) : Vec3Q := t.rotation.mulVec3 ⟨0, 1, 0⟩

/-- `GlobalTransform::forward() = -local_z() = -(rotation * Vec3::Z)`. -/
def forward (t : TransformQ) : Vec3Q := -(t.rotation.mulVec3 ⟨0, 0, 1⟩)

/-- An identity transform at a given translation. -/
def atTranslation (v : Vec3Q) : TransformQ := ⟨v, QuatQ.identity, ⟨1, 1, 1⟩⟩

end TransformQ

/-- `ColliderType` from src/collision.rs (a single `Box` variant). -/
inductive ColliderTypeQ where
  | Box (extents : Vec3Q)
deriving DecidableEq, Repr

/-- `Collider` from src/collision.rs. -/
structure ColliderQ where
  ty : ColliderTypeQ
deriving DecidableEq, Repr

/-- `Collider::new_box`. -/
def ColliderQ.new_box (extents : Vec3Q) : ColliderQ := ⟨ColliderTypeQ.Box extents⟩

/-- `Collider::I_b`: body-space inertia tensor diagonal
`(y²+z², x²+z², x²+y²) / 12` (the diagonal vector; the full matrix is
`Mat3::from_diagonal` of it, defined with the matrix type below). -/
def ColliderQ.I_b_diag (c : ColliderQ) : Vec3Q :=
  match c.ty with
  | ColliderTypeQ.Box v =>
    Vec3Q.divScalar ⟨v.y * v.y + v.z * v.z, v.x * v.x + v.z * v.z, v.x * v.x + v.y * v.y⟩ 12

/-- `BOX_VERTICES` from src/collision.rs: the 8 corners of `[-1, 1]³`, in
source order. -/
def BOX_VERTICES : List Vec3Q :=
  [⟨-1, -1, -1⟩, ⟨-1, -1, 1⟩, ⟨-1, 1, -1⟩, ⟨-1, 1, 1⟩,
   ⟨1, -1, -1⟩, ⟨1, -1, 1⟩, ⟨1, 1, -1⟩, ⟨1, 1, 1⟩]

/-- `CollisionData` from src/collision.rs. -/
structure CollisionDataQ where
  normal : Vec3Q
  depth : ℚ
deriving DecidableEq, Repr

/-- `TransformedCollider` from src/collision.rs: a collider paired with its
world transform. -/
structure TransformedColliderQ where
  collider : ColliderQ
  transform : TransformQ
deriving DecidableEq, Repr

/-- `Collider::with_transform`. -/
def ColliderQ.with_transform (c : ColliderQ) (t : TransformQ) : TransformedColliderQ :=
  ⟨c, t⟩

/-- `TransformedCollider::aabb`: transform all 8 scaled box corners into
world space and fit an AABB. -/
def TransformedColliderQ.aabb (s : TransformedColliderQ) : AABBQ :=
  match s.collider.ty with
  | ColliderTypeQ.Box extents =>
    AABBQ.fit_vertices
      (BOX_VERTICES.map fun v => s.transform.mul_vec3 (Vec3Q.smul (1/2) (cwise_mul extents v)))

/-- The candidate-axis list built by `TransformedCollider::collide`
(src/collision.rs lines 73-85): the two boxes' basis axes followed by the
cross products `self_axes[i] × self_axes[j]` for `i < j` — the source
crosses the FIRST box's axes with themselves, not one box's axes with the
other's. -/
def satAxes (t1 t2 : TransformQ) : List Vec3Q :=
  [t1.right, t1.up, t1.forward, t2.right, t2.up, t2.forward,
   Vec3Q.cross t1.right t1.up, Vec3Q.cross t1.right t1.forward,
   Vec3Q.cross t1.up t1.forward]

/-- The vertex array built by `TransformedCollider::collide`
(src/collision.rs lines 87-93): only the first 6 of the 8 `BOX_VERTICES`
are written (the arrays are `[Vec3::ZERO; 6]` and the loop runs `0..6`),
each scaled by half the given extents and transformed by the given
transform. -/
def satVertices (extents : Vec3Q) (t : TransformQ) : List Vec3Q :=
  (BOX_VERTICES.take 6).map fun v => t.mul_vec3 (Vec3Q.smul (1/2) (cwise_mul extents v))

/-- The vertex array `other_vertices` exactly as `collide` computes it for
the SECOND box: the second box's extents, but the FIRST box's transform
(`self.transform.mul_vec3` on src/collision.rs line 92). -/
def collideOtherVertices (s other : TransformedColliderQ) : List Vec3Q :=
  match s.collider.ty, other.collider.ty with
  | ColliderTypeQ.Box _, ColliderTypeQ.Box other_extents =>
    satVertices other_extents s.transform

/-- The SAT loop of `TransformedCollider::collide` (src/collision.rs lines
98-116): for each axis, skip it when degenerate (`length < 1e-6`, tested
here as squared length `< 1e-12`), otherwise intersect the two projection
intervals; an empty intersection clears the minimum and breaks, a smaller
intersection replaces the tracked minimum and normal. -/
def satLoop (sv ov : List Vec3Q) :
    List Vec3Q → Vec3Q → Option IntervalQ → Vec3Q × Option IntervalQ
  | [], normal, mi => (normal, mi)
  | axis :: rest, normal, mi =>
    if Vec3Q.dot axis axis < 1 / 1000000000000 then satLoop sv ov rest normal mi
    else
      match IntervalQ.intersection (IntervalQ.vertex_projection sv axis)
          (IntervalQ.vertex_projection ov axis) with
      | some inter =>
        match mi with
        | none => satLoop sv ov rest axis (some inter)
        | some m =>
          if m.length > inter.length then satLoop sv ov rest axis (some inter)
          else satLoop sv ov rest normal mi
      | none => (normal, none)

/-- `TransformedCollider::collide` (src/collision.rs lines 69-125). -/
def TransformedColliderQ.collide (s other : TransformedColliderQ) : Option CollisionDataQ :=
  match s.collider.ty, other.collider.ty with
  | ColliderTypeQ.Box self_extents, ColliderTypeQ.Box _ =>
    let axes := satAxes s.transform other.transform
    let sv := satVertices self_extents s.transform
    let ov := collideOtherVertices s other
    let r := satLoop sv ov axes 0 none
    r.2.map fun i => { normal := r.1, depth := i.length }

/-- C5: for well-formed intervals (`max ≥ min`), `intersection` is symmetric,
and it is `None` exactly when one interval lies strictly beyond the other. -/
theorem interval_intersection_symm_none_iff (A B : IntervalQ)
    (hA : A.min ≤ A.max) (hB : B.min ≤ B.max) :
    IntervalQ.intersection A B = IntervalQ.intersection B A ∧
      (IntervalQ.intersection A B = none ↔ A.max < B.min ∨ B.max < A.min) := by
  have key : IntervalQ.intersection A B = none ↔
      Min.min A.max B.max < Max.max A.min B.min := by
    by_cases hc : Min.min A.max B.max < Max.max A.min B.min
    · have hcond : IntervalQ.length ⟨Max.max A.min B.min, Min.min A.max B.max⟩ < 0 := by
        simp only [IntervalQ.length]
        linarith
      simp [IntervalQ.intersection, if_pos hcond, hc]
    · have hcond : ¬ IntervalQ.length ⟨Max.max A.min B.min, Min.min A.max B.max⟩ < 0 := by
        simp only [IntervalQ.length]
        intro hlt
        exact hc (by linarith)
      simp [IntervalQ.intersection, if_neg hcond, hc]
  constructor
  · simp [IntervalQ.intersection, max_comm, min_comm]
  · rw [key]
    constructor
    · intro hlt
      rcases min_lt_iff.mp hlt with h1 | h1
      · rcases lt_max_iff.mp h1 with h2 | h2
        · exact absurd h2 (not_lt.mpr hA)
        · exact Or.inl h2
      · rcases lt_max_iff.mp h1 with h2 | h2
        · exact Or.inr h2
        · exact absurd h2 (not_lt.mpr hB)
    · intro h
      rcases h with h | h
      · exact lt_of_le_of_lt (min_le_left _ _) (lt_of_lt_of_le h (le_max_right _ _))
      · exact lt_of_le_of_lt (min_le_right _ _) (lt_of_lt_of_le h (le_max_left _ _))

/-- Witness for C5 at `A = [0; 1]`, `B = [-1; 2]`. -/
theorem interval_intersection_symm_none_iff_witness :
    ((0 : ℚ) ≤ 1 ∧ (-1 : ℚ) ≤ 2) ∧
      (IntervalQ.intersection ⟨0, 1⟩ ⟨-1, 2⟩ = IntervalQ.intersection ⟨-1, 2⟩ ⟨0, 1⟩ ∧
        (IntervalQ.intersection ⟨0, 1⟩ ⟨-1, 2⟩ = none ↔
          (1 : ℚ) < -1 ∨ (2 : ℚ) < 0)) :=
  ⟨⟨by norm_num, by norm_num⟩,
    interval_intersection_symm_none_iff ⟨0, 1⟩ ⟨-1, 2⟩ (by norm_num) (by norm_num)⟩

/-- Unit box collider, extents `(1, 1, 1)`. -/
def uboxQ : ColliderQ := ColliderQ.new_box ⟨1, 1, 1⟩

/-- Identity transform at the origin. -/
def T0Q : TransformQ := TransformQ.atTranslation ⟨0, 0, 0⟩

/-- Identity transform translated to `(3, 0, 0)`. -/
def T3Q : TransformQ := TransformQ.atTranslation ⟨3, 0, 0⟩

/-- Identity transform translated to `(1/2, 0, 0)`. -/
def ThalfQ : TransformQ := TransformQ.atTranslation ⟨1/2, 0, 0⟩

/-- Identity-scale transform at the origin rotated 180° about Z
(quaternion `(0, 0, 1, 0)`). -/
def TrotZQ : TransformQ := ⟨⟨0, 0, 0⟩, ⟨0, 0, 1, 0⟩, ⟨1, 1, 1⟩⟩

/-- C1 (code bug): for unit boxes at the origin and at `(3, 0, 0)`,
`collide` builds the second box's vertex array from the FIRST box's
transform — the resulting vertices are centered at the origin, identical to
the first box's own vertex array — and it contains only 6 vertices, not 8.
This contradicts the claim that each box's 8 world-space vertices are
computed from its own transform. -/
theorem collide_other_vertices_use_self_transform :
    collideOtherVertices (uboxQ.with_transform T0Q) (uboxQ.with_transform T3Q) =
        [⟨-1/2, -1/2, -1/2⟩, ⟨-1/2, -1/2, 1/2⟩, ⟨-1/2, 1/2, -1/2⟩,
         ⟨-1/2, 1/2, 1/2⟩, ⟨1/2, -1/2, -1/2⟩, ⟨1/2, -1/2, 1/2⟩] ∧
      collideOtherVertices (uboxQ.with_transform T0Q) (uboxQ.with_transform T3Q) =
        satVertices ⟨1, 1, 1⟩ T0Q ∧
      (collideOtherVertices (uboxQ.with_transform T0Q) (uboxQ.with_transform T3Q)).length
        = 6 := by
  refine ⟨?_, ?_, rfl⟩ <;>
    norm_num [collideOtherVertices, satVertices, BOX_VERTICES, uboxQ, T0Q, T3Q,
      ColliderQ.new_box, ColliderQ.with_transform, TransformQ.atTranslation,
      TransformQ.mul_vec3, QuatQ.identity, QuatQ.mulVec3, Vec3Q.smul, Vec3Q.dot,
      Vec3Q.cross, cwise_mul, Vec3Q.add_comp, Vec3Q.neg_comp]

/-- C2 (code bug): the candidate-axis list built by `collide` for a unit box
at identity against a unit box rotated 180° about Z has 9 entries — the two
boxes' basis axes (6) plus the 3 cross products of the FIRST box's axes with
each other (`X×Y`, `X×(-Z)`, `Y×(-Z)`) — not the 15 axes (6 basis + 9
cross-box cross products) of the claim. -/
theorem collide_axes_are_nine_same_box_crosses :
    satAxes T0Q TrotZQ =
        [⟨1, 0, 0⟩, ⟨0, 1, 0⟩, ⟨0, 0, -1⟩,
         ⟨-1, 0, 0⟩, ⟨0, -1, 0⟩, ⟨0, 0, -1⟩,
         ⟨0, 0, 1⟩, ⟨0, 1, 0⟩, ⟨-1, 0, 0⟩] ∧
      (satAxes T0Q TrotZQ).length = 9 := by
  refine ⟨?_, rfl⟩
  norm_num [satAxes, T0Q, TrotZQ, TransformQ.atTranslation, TransformQ.right,
    TransformQ.up, TransformQ.forward, QuatQ.identity, QuatQ.mulVec3, Vec3Q.smul,
    Vec3Q.dot, Vec3Q.cross, Vec3Q.add_comp, Vec3Q.neg_comp]

/-- C3 (code bug): two axis-aligned unit boxes at `(0,0,0)` and `(3,0,0)`
are separated by a gap of 2, yet `collide` returns
`Some{normal: (1,0,0), depth: 1}` instead of `None`, because the second
box's vertices are computed from the first box's transform and the two
vertex sets coincide at the origin. -/
theorem collide_reports_overlap_for_separated_boxes :
    TransformedColliderQ.collide (uboxQ.with_transform T0Q) (uboxQ.with_transform T3Q) =
      some { normal := ⟨1, 0, 0⟩, depth := 1 } := by
  norm_num [TransformedColliderQ.collide, satAxes, satVertices, collideOtherVertices,
    satLoop, BOX_VERTICES, uboxQ, T0Q, T3Q, ColliderQ.new_box, ColliderQ.with_transform,
    TransformQ.atTranslation, TransformQ.mul_vec3, TransformQ.right, TransformQ.up,
    TransformQ.forward, QuatQ.identity, QuatQ.mulVec3, Vec3Q.smul, Vec3Q.dot,
    Vec3Q.cross, cwise_mul, Vec3Q.add_comp, Vec3Q.neg_comp, Vec3Q.zero_comp,
    IntervalQ.vertex_projection, IntervalQ.intersection, IntervalQ.length,
    min_def, max_def]

/-- C4 (code bug): two axis-aligned unit boxes at `(0,0,0)` and `(1/2,0,0)`
overlap with true penetration depth `1/2` along X, yet `collide` returns
depth `1` (the second box's translation is ignored, so the boxes are tested
as coincident). -/
theorem collide_depth_ignores_other_translation :
    TransformedColliderQ.collide (uboxQ.with_transform T0Q) (uboxQ.with_transform ThalfQ) =
      some { normal := ⟨1, 0, 0⟩, depth := 1 } ∧ (1 : ℚ) ≠ 1/2 := by
  refine ⟨?_, by norm_num⟩
  norm_num [TransformedColliderQ.collide, satAxes, satVertices, collideOtherVertices,
    satLoop, BOX_VERTICES, uboxQ, T0Q, ThalfQ, ColliderQ.new_box, ColliderQ.with_transform,
    TransformQ.atTranslation, TransformQ.mul_vec3, TransformQ.right, TransformQ.up,
    TransformQ.forward, QuatQ.identity, QuatQ.mulVec3, Vec3Q.smul, Vec3Q.dot,
    Vec3Q.cross, cwise_mul, Vec3Q.add_comp, Vec3Q.neg_comp, Vec3Q.zero_comp,
    IntervalQ.vertex_projection, IntervalQ.intersection, IntervalQ.length,
    min_def, max_def]

/-- `bevy::Entity`: an opaque object identifier. -/
abbrev EntityQ : Type := ℕ

/-- `Collision` from src/collision.rs: a pair record of participants. -/
structure CollisionQ where
  entity_a : EntityQ
  entity_b : EntityQ
deriving DecidableEq, Repr

/-- `CollisionStore` from src/collision.rs. -/
structure CollisionStoreQ where
  collisions : List CollisionQ
deriving DecidableEq, Repr

namespace CollisionStoreQ

/-- `CollisionStore::new`. -/
def new : CollisionStoreQ := ⟨[]⟩

/-- `CollisionStore::add_collision`: appends a pair record; the
`CollisionData` argument is accepted but not stored. -/
def add_collision (s : CollisionStoreQ) (a b : EntityQ) (_data : CollisionDataQ) :
    CollisionStoreQ :=
  ⟨s.collisions ++ [⟨a, b⟩]⟩

/-- `CollisionStore::clear`. -/
def clear (_s : CollisionStoreQ) : CollisionStoreQ := ⟨[]⟩

/-- `CollisionStore::has_collision`: true iff the entity appears on either
side of any stored pair. -/
def has_collision (s : CollisionStoreQ) (e : EntityQ) : Bool :=
  s.collisions.any fun coll => coll.entity_a = e ∨ coll.entity_b = e

end CollisionStoreQ

/-- C8: after `clear()` no entity has a collision; in a store holding
exactly the one pair `(A, B)` added by `add_collision`, `A` and `B` have a
collision and any third entity does not, whatever the payload. -/
theorem collision_store_lifecycle (s : CollisionStoreQ) (x A B C : EntityQ)
    (data : CollisionDataQ) (hCA : C ≠ A) (hCB : C ≠ B) :
    (s.clear).has_collision x = false ∧
      (CollisionStoreQ.new.add_collision A B data).has_collision A = true ∧
      (CollisionStoreQ.new.add_collision A B data).has_collision B = true ∧
      (CollisionStoreQ.new.add_collision A B data).has_collision C = false := by
  refine ⟨rfl, ?_, ?_, ?_⟩ <;>
    simp [CollisionStoreQ.new, CollisionStoreQ.add_collision,
      CollisionStoreQ.has_collision, hCA.symm, hCB.symm]

/-- Witness for C8 at `s = new`, `x = 0`, `(A, B) = (1, 2)`, `C = 3`. -/
theorem collision_store_lifecycle_witness :
    ((3 : EntityQ) ≠ 1 ∧ (3 : EntityQ) ≠ 2) ∧
      (CollisionStoreQ.new.clear.has_collision 0 = false ∧
        (CollisionStoreQ.new.add_collision 1 2 ⟨⟨1, 0, 0⟩, 1⟩).has_collision 1 = true ∧
        (CollisionStoreQ.new.add_collision 1 2 ⟨⟨1, 0, 0⟩, 1⟩).has_collision 2 = true ∧
        (CollisionStoreQ.new.add_collision 1 2 ⟨⟨1, 0, 0⟩, 1⟩).has_collision 3 = false) :=
  ⟨⟨by decide, by decide⟩,
    collision_store_lifecycle CollisionStoreQ.new 0 1 2 3 ⟨⟨1, 0, 0⟩, 1⟩
      (by decide) (by decide)⟩

/-- `(Entity, &Collider, &GlobalTransform)` — the query item of the
broad-phase `collide` system. -/
abbrev ColliderTripleQ : Type := EntityQ × ColliderQ × TransformQ

/-- The AABB list the `collide` system computes from its query
(src/collision.rs line 173): each collider's AABB under its own transform. -/
def aabbsOf (triples : List ColliderTripleQ) : List AABBQ :=
  triples.map fun x => (x.2.1.with_transform x.2.2).aabb

/-- Default AABB used to model (always in-bounds) slice indexing. -/
def aabbDefault : AABBQ := ⟨⟨0, 0, 0⟩, ⟨0, 0, 0⟩⟩

/-- `aabbs[i].min[d]` for an object index `i`. -/
def aabbKeyMin (aabbs : List AABBQ) (d : Fin 3) (i : ℕ) : ℚ :=
  (aabbs.getD i aabbDefault).min.nth d

/-- `aabbs[i].max[d]` for an object index `i`. -/
def aabbKeyMax (aabbs : List AABBQ) (d : Fin 3) (i : ℕ) : ℚ :=
  (aabbs.getD i aabbDefault).max.nth d

/-- The sorted index list of the sweep (src/collision.rs lines 180-184):
object indices ordered by AABB minimum on axis `d`.  `Vec::sort_by` is a
stable sort, modelled by Mathlib's stable `insertionSort`. -/
def axisOrder (aabbs : List AABBQ) (d : Fin 3) : List ℕ :=
  List.insertionSort (fun i j => aabbKeyMin aabbs d i ≤ aabbKeyMin aabbs d j)
    (List.range aabbs.length)

/-- The inner while loop of the sweep (src/collision.rs lines 187-192):
starting at position `i + 1` in sort order, advance while the candidate's
AABB minimum does not exceed the current object's AABB maximum on this
axis. -/
def innerLoopJs (aabbs : List AABBQ) (d : Fin 3) (axis : List ℕ) (i : ℕ) : List ℕ :=
  (List.range' (i + 1) (aabbs.length - (i + 1))).takeWhile fun j =>
    aabbKeyMin aabbs d (axis.getD j 0) ≤ aabbKeyMax aabbs d (axis.getD i 0)

/-- The pairs the inner loop records for position `i`: each with the two
object indices in ascending numeric order (`usize::min`, `usize::max`). -/
def innerPairs (aabbs : List AABBQ) (d : Fin 3) (axis : List ℕ) (i : ℕ) : List (ℕ × ℕ) :=
  (innerLoopJs aabbs d axis i).map fun j =>
    (min (axis.getD i 0) (axis.getD j 0), max (axis.getD i 0) (axis.getD j 0))

/-- All pairs the sweep records on axis `d`, over the outer loop
`i in 0..n-1` (the caller guarantees `n ≥ 1`; see `collideBroadPhase`). -/
def sweepPairs (aabbs : List AABBQ) (d : Fin 3) : List (ℕ × ℕ) :=
  ((List.range (aabbs.length - 1)).map fun i =>
    innerPairs aabbs d (axisOrder aabbs d) i).flatten

/-- The per-axis candidate set: the `HashSet` the sweep inserts into,
modelled as a `Finset` built by folding `insert` over the recorded pairs. -/
def perAxisCollisions (aabbs : List AABBQ) (d : Fin 3) : Finset (ℕ × ℕ) :=
  (sweepPairs aabbs d).foldl (fun s p => insert p s) ∅

/-- The final candidate set (src/collision.rs lines 196-198): fold of
set-intersection over the three per-axis sets, seeded with the first one
(so the first set participates twice, as in the source). -/
def collideCandidates (aabbs : List AABBQ) : Finset (ℕ × ℕ) :=
  [perAxisCollisions aabbs 0, perAxisCollisions aabbs 1,
    perAxisCollisions aabbs 2].foldl (fun s1 s2 => s1 ∩ s2) (perAxisCollisions aabbs 0)

/-- The broad-phase pass of the `collide` system.  The outer sweep loop
bound is `n - 1` on a `usize`: with `n = 0` the checked subtraction
underflows (a panic), modelled by the `none` branch; with `n ≥ 1` the pass
returns the candidate set. -/
def collideBroadPhase (triples : List ColliderTripleQ) : Option (Finset (ℕ × ℕ)) :=
  let aabbs := aabbsOf triples
  if aabbs.length = 0 then none else some (collideCandidates aabbs)

/-- Membership in a fold of `insert` over a list (the `HashSet` built by the
sweep): an element is in the result iff it was inserted or already present. -/
theorem mem_foldl_insert {α : Type} [DecidableEq α] (l : List α) (s : Finset α) (p : α) :
    p ∈ l.foldl (fun acc q => insert q acc) s ↔ p ∈ l ∨ p ∈ s := by
  induction l generalizing s with
  | nil => simp
  | cons q l ih =>
    rw [List.foldl_cons, ih]
    simp only [Finset.mem_insert, List.mem_cons]
    tauto

/-- The sorted index list is a permutation of `range n`, hence duplicate-free. -/
theorem axisOrder_nodup (aabbs : List AABBQ) (d : Fin 3) : (axisOrder aabbs d).Nodup :=
  (List.perm_insertionSort _ _).nodup_iff.mpr (List.nodup_range _)

theorem axisOrder_length (aabbs : List AABBQ) (d : Fin 3) :
    (axisOrder aabbs d).length = aabbs.length := by
  rw [axisOrder, List.length_insertionSort, List.length_range]

/-- Every pair the sweep records on any axis has its smaller object index
first: the two positions are distinct positions of a duplicate-free index
list, so the indexed objects differ and `min < max`. -/
theorem perAxisCollisions_ascending (aabbs : List AABBQ) (d : Fin 3) :
    ∀ p ∈ perAxisCollisions aabbs d, p.1 < p.2 := by
  intro p hp
  rw [perAxisCollisions, mem_foldl_insert] at hp
  rcases hp with hp | hp
  · rw [sweepPairs, List.mem_flatten] at hp
    obtain ⟨l, hl, hpl⟩ := hp
    rw [List.mem_map] at hl
    obtain ⟨i, hi, rfl⟩ := hl
    rw [List.mem_range] at hi
    rw [innerPairs, List.mem_map] at hpl
    obtain ⟨j, hj, rfl⟩ := hpl
    have hj' : j ∈ List.range' (i + 1) (aabbs.length - (i + 1)) :=
      (List.takeWhile_sublist _).subset hj
    rw [List.mem_range'_1] at hj'
    have hlen := axisOrder_length aabbs d
    have hi' : i < (axisOrder aabbs d).length := by omega
    have hj2 : j < (axisOrder aabbs d).length := by omega
    have hne : (axisOrder aabbs d).getD i 0 ≠ (axisOrder aabbs d).getD j 0 := by
      rw [List.getD_eq_getElem _ _ hi', List.getD_eq_getElem _ _ hj2]
      intro heq
      have h2 := (List.Nodup.get_inj_iff (axisOrder_nodup aabbs d)
        (i := ⟨i, hi'⟩) (j := ⟨j, hj2⟩)).mp (by simpa using heq)
      have : i = j := congrArg Fin.val h2
      omega
    simpa using min_lt_max.mpr hne
  · simp at hp

/-- C6: for a non-empty input set of (entity, collider, transform) triples,
the broad-phase candidate set handed to the narrow phase is exactly the
intersection of the three per-axis candidate sets, and every recorded
per-axis pair stores its two object indices in ascending order. -/
theorem broad_phase_candidates (triples : List ColliderTripleQ) (h : triples ≠ []) :
    collideBroadPhase triples =
        some (perAxisCollisions (aabbsOf triples) 0 ∩ perAxisCollisions (aabbsOf triples) 1 ∩
          perAxisCollisions (aabbsOf triples) 2) ∧
      ∀ d : Fin 3, ∀ p ∈ perAxisCollisions (aabbsOf triples) d, p.1 < p.2 := by
  constructor
  · have hlen : ¬ (aabbsOf triples).length = 0 := by
      simpa [aabbsOf, List.length_eq_zero] using h
    simp only [collideBroadPhase, collideCandidates]
    rw [if_neg hlen]
    simp [Finset.inter_self, Finset.inter_assoc]
  · intro d
    exact perAxisCollisions_ascending (aabbsOf triples) d

/-- Concrete two-object input for the broad-phase witness. -/
def triplesW : List ColliderTripleQ := [(0, uboxQ, T0Q), (1, uboxQ, T3Q)]

/-- Witness for C6 at a concrete two-box input. -/
theorem broad_phase_candidates_witness :
    triplesW ≠ [] ∧
      (collideBroadPhase triplesW =
          some (perAxisCollisions (aabbsOf triplesW) 0 ∩
            perAxisCollisions (aabbsOf triplesW) 1 ∩ perAxisCollisions (aabbsOf triplesW) 2) ∧
        ∀ d : Fin 3, ∀ p ∈ perAxisCollisions (aabbsOf triplesW) d, p.1 < p.2) :=
  ⟨by simp [triplesW], broad_phase_candidates triplesW (by simp [triplesW])⟩

/-- C10: the broad-phase pass is defined exactly on non-empty inputs — the
checked `n - 1` sweep bound (`none` branch) fails precisely when the query
yields zero colliders. -/
theorem broad_phase_none_iff_empty (triples : List ColliderTripleQ) :
    collideBroadPhase triples = none ↔ triples = [] := by
  have hlen : (aabbsOf triples).length = triples.length := by
    simp [aabbsOf]
  by_cases h : (aabbsOf triples).length = 0
  · have ht : triples = [] := List.length_eq_zero.mp (by omega)
    simp only [collideBroadPhase]
    rw [if_pos h]
    simp [ht]
  · have ht : triples ≠ [] := by
      intro he
      apply h
      rw [he]
      simp [aabbsOf]
    simp only [collideBroadPhase]
    rw [if_neg h]
    simp [ht]

/-- `Mat3` from `bevy::math` (glam): column-major 3×3 matrix. -/
structure Mat3Q where
  x_axis : Vec3Q
  y_axis : Vec3Q
  z_axis : Vec3Q
deriving DecidableEq, Repr

namespace Mat3Q

/-- glam `Mat3 * Vec3`: linear combination of the columns. -/
def mulVec (m : Mat3Q) (v : Vec3Q) : Vec3Q :=
  Vec3Q.smul v.x m.x_axis + Vec3Q.smul v.y m.y_axis + Vec3Q.smul v.z m.z_axis

/-- glam `Mat3 * Mat3`. -/
def matMul (a b : Mat3Q) : Mat3Q :=
  ⟨a.mulVec b.x_axis, a.mulVec b.y_axis, a.mulVec b.z_axis⟩

def add (a b : Mat3Q) : Mat3Q :=
  ⟨a.x_axis + b.x_axis, a.y_axis + b.y_axis, a.z_axis + b.z_axis⟩

def sub (a b : Mat3Q) : Mat3Q :=
  ⟨a.x_axis - b.x_axis, a.y_axis - b.y_axis, a.z_axis - b.z_axis⟩

def smulMat (c : ℚ) (m : Mat3Q) : Mat3Q :=
  ⟨Vec3Q.smul c m.x_axis, Vec3Q.smul c m.y_axis, Vec3Q.smul c m.z_axis⟩

instance : Add Mat3Q := ⟨add⟩
instance : Sub Mat3Q := ⟨sub⟩
instance : Mul Mat3Q := ⟨matMul⟩
instance : SMul ℚ Mat3Q := ⟨smulMat⟩

def transpose (m : Mat3Q) : Mat3Q :=
  ⟨⟨m.x_axis.x, m.y_axis.x, m.z_axis.x⟩,
   ⟨m.x_axis.y, m.y_axis.y, m.z_axis.y⟩,
   ⟨m.x_axis.z, m.y_axis.z, m.z_axis.z⟩⟩

/-- glam `Mat3::from_diagonal`. -/
def from_diagonal (v : Vec3Q) : Mat3Q :=
  ⟨⟨v.x, 0, 0⟩, ⟨0, v.y, 0⟩, ⟨0, 0, v.z⟩⟩

/-- glam `Mat3::inverse`: cross-product adjugate over the determinant.
`det.recip()` at `det = 0` is non-finite in the source (a documented fatal
precondition violation); `ℚ` returns `0` there, a branch no claim relies
on. -/
def inverse (m : Mat3Q) : Mat3Q :=
  let tmp0 := Vec3Q.cross m.y_axis m.z_axis
  let tmp1 := Vec3Q.cross m.z_axis m.x_axis
  let tmp2 := Vec3Q.cross m.x_axis m.y_axis
  let det := Vec3Q.dot m.z_axis tmp2
  let inv_det := det⁻¹
  transpose ⟨Vec3Q.smul inv_det tmp0, Vec3Q.smul inv_det tmp1, Vec3Q.smul inv_det tmp2⟩

/-- glam `Mat3::from_quat` (standard rotation matrix of a unit quaternion). -/
def from_quat (q : QuatQ) : Mat3Q :=
  let x2 := q.x + q.x
  let y2 := q.y + q.y
  let z2 := q.z + q.z
  let xx := q.x * x2
  let xy := q.x * y2
  let xz := q.x * z2
  let yy := q.y * y2
  let yz := q.y * z2
  let zz := q.z * z2
  let wx := q.w * x2
  let wy := q.w * y2
  let wz := q.w * z2
  ⟨⟨1 - (yy + zz), xy + wz, xz - wy⟩,
   ⟨xy - wz, 1 - (xx + zz), yz + wx⟩,
   ⟨xz + wy, yz - wx, 1 - (xx + yy)⟩⟩

end Mat3Q

/-- `skew` from src/math.rs: skew-symmetric cross-product matrix, given by
its three columns. -/
def skew (w : Vec3Q) : Mat3Q :=
  ⟨⟨0, w.z, -w.y⟩, ⟨-w.z, 0, w.x⟩, ⟨w.y, -w.x, 0⟩⟩

/-- `Collider::I_b` as the full diagonal matrix `Mat3::from_diagonal`. -/
def ColliderQ.I_b (c : ColliderQ) : Mat3Q := Mat3Q.from_diagonal c.I_b_diag

/-- `RigidBody` from src/rigidbody.rs. -/
structure RigidBodyQ where
  mass : ℚ
  velocity : Vec3Q
  angular_velocity : Vec3Q
  force : Vec3Q
  torque : Vec3Q
deriving DecidableEq, Repr

/-- `RigidBody::add_force`: accumulate a force and its torque about the
offset. -/
def RigidBodyQ.add_force (rb : RigidBodyQ) (offset force : Vec3Q) : RigidBodyQ :=
  { rb with force := rb.force + force, torque := rb.torque + Vec3Q.cross offset force }

/-- `PhysicsWorld` from src/rigidbody.rs. -/
structure PhysicsWorldQ where
  dt : ℚ
  g : Vec3Q
  t : ℚ
deriving DecidableEq, Repr

/-- The per-body effect of `update` (src/rigidbody.rs lines 48-79) on the
`RigidBody` component, given the body's collider and current orientation:
semi-implicit linear step, implicit gyroscopic angular step, explicit
torque application, then zeroing of the force/torque accumulators.  (The
source additionally integrates the transform — `rotation` via a quaternion
step with renormalization, which involves a square root outside the
rational model, and `translation += velocity * dt` — and advances
`PhysicsWorld.t` once per pass; no claim concerns those fields.) -/
def updateRigidBody (pw : PhysicsWorldQ) (rot : QuatQ) (coll : ColliderQ)
    (rb : RigidBodyQ) : RigidBodyQ :=
  let a := Vec3Q.divScalar rb.force rb.mass + pw.g
  let velocity := rb.velocity + pw.dt • a
  let w0 := rb.angular_velocity
  let I_b := coll.I_b
  let R := Mat3Q.from_quat rot
  let I_inv := R * I_b.inverse * R.inverse
  let wb := R.inverse.mulVec w0
  let f := pw.dt • Vec3Q.cross wb (I_b.mulVec wb)
  let J := I_b + pw.dt • (skew wb * I_b - skew (I_b.mulVec wb))
  let dwb := J.inverse.mulVec f
  let w1 := R.mulVec (wb - dwb)
  let w2 := w1 + pw.dt • I_inv.mulVec rb.torque
  { mass := rb.mass, velocity := velocity, angular_velocity := w2,
    force := 0, torque := 0 }

/-- C7: with positive mass, zero accumulated force and zero gravity, one
integration step leaves the linear velocity unchanged, whatever the initial
velocity and angular velocity. -/
theorem update_preserves_velocity_zero_force (pw : PhysicsWorldQ) (rot : QuatQ)
    (coll : ColliderQ) (rb : RigidBodyQ) (hm : 0 < rb.mass) (hf : rb.force = 0)
    (hg : pw.g = 0) :
    (updateRigidBody pw rot coll rb).velocity = rb.velocity := by
  simp [updateRigidBody, hf, hg, Vec3Q.divScalar, Vec3Q.zero_comp, Vec3Q.add_comp,
    Vec3Q.smul_comp]

/-- Witness for C7 at a concrete body (mass 2, velocity `(1,2,3)`, angular
velocity `(4,5,6)`, torque `(7,8,9)`) under `g = 0`, `dt = 1/50`. -/
theorem update_preserves_velocity_zero_force_witness :
    ((0 : ℚ) < 2 ∧ (⟨0, 0, 0⟩ : Vec3Q) = 0 ∧ (⟨0, 0, 0⟩ : Vec3Q) = 0) ∧
      (updateRigidBody ⟨1/50, ⟨0, 0, 0⟩, 0⟩ QuatQ.identity uboxQ
          ⟨2, ⟨1, 2, 3⟩, ⟨4, 5, 6⟩, ⟨0, 0, 0⟩, ⟨7, 8, 9⟩⟩).velocity = ⟨1, 2, 3⟩ :=
  ⟨⟨by norm_num, rfl, rfl⟩,
    update_preserves_velocity_zero_force ⟨1/50, ⟨0, 0, 0⟩, 0⟩ QuatQ.identity uboxQ
      ⟨2, ⟨1, 2, 3⟩, ⟨4, 5, 6⟩, ⟨0, 0, 0⟩, ⟨7, 8, 9⟩⟩ (by norm_num) rfl rfl⟩

/-- C9: one integration step zeroes the force and torque accumulators for
any initial values, keeps the mass, and changes velocity and angular
velocity exactly by the integration equations of the design (linear
semi-implicit Euler; implicit gyroscopic step `R·(w_b − J⁻¹f)` plus
explicit torque `R·I_b⁻¹·R⁻¹·τ·dt`). -/
theorem update_resets_accumulators (pw : PhysicsWorldQ) (rot : QuatQ)
    (coll : ColliderQ) (rb : RigidBodyQ) :
    (updateRigidBody pw rot coll rb).force = 0 ∧
      (updateRigidBody pw rot coll rb).torque = 0 ∧
      (updateRigidBody pw rot coll rb).mass = rb.mass ∧
      (updateRigidBody pw rot coll rb).velocity =
        rb.velocity + pw.dt • (Vec3Q.divScalar rb.force rb.mass + pw.g) ∧
      (updateRigidBody pw rot coll rb).angular_velocity =
        (Mat3Q.from_quat rot).mulVec
            ((Mat3Q.from_quat rot).inverse.mulVec rb.angular_velocity -
              (coll.I_b + pw.dt •
                  (skew ((Mat3Q.from_quat rot).inverse.mulVec rb.angular_velocity) *
                      coll.I_b -
                    skew (coll.I_b.mulVec
                      ((Mat3Q.from_quat rot).inverse.mulVec rb.angular_velocity)))).inverse.mulVec
                (pw.dt • Vec3Q.cross
                  ((Mat3Q.from_quat rot).inverse.mulVec rb.angular_velocity)
                  (coll.I_b.mulVec
                    ((Mat3Q.from_quat rot).inverse.mulVec rb.angular_velocity)))) +
          pw.dt • (Mat3Q.from_quat rot * coll.I_b.inverse *
            (Mat3Q.from_quat rot).inverse).mulVec rb.torque :=
  ⟨rfl, rfl, rfl, rfl, rfl⟩
